import Mathlib

/-!
Verification of the aiterm orchestrator against its specification.

The Go sources under `src/` are shallowly embedded below: pure string
processing becomes Lean functions on `String`/`List Char`, the HTTP
round-trip of the AI client becomes a step over an explicit transport
state, and components whose code is not part of the source snapshot
(risk gate, context-budget manager, response parser) are modelled from
the specification text, as marked in their doc comments.
-/

namespace Aiterm

/-! ## Shared string helpers (Go `strings` package semantics) -/

/-- Whitespace according to Go `unicode.IsSpace` restricted to ASCII
(used by `strings.TrimSpace`). -/
def isGoSpace (c : Char) : Bool :=
  c == ' ' || c == '\t' || c == '\n' || c == '\x0b' || c == '\x0c' || c == '\r'

/-- Whitespace of the Go regexp class `\s` (no vertical tab). -/
def isReSpace (c : Char) : Bool :=
  c == ' ' || c == '\t' || c == '\n' || c == '\x0c' || c == '\r'

/-- Trim `isGoSpace` characters from both ends of a character list. -/
def trimChars (l : List Char) : List Char :=
  ((l.dropWhile isGoSpace).reverse.dropWhile isGoSpace).reverse

/-- Go `strings.TrimSpace`. -/
def strTrim (s : String) : String :=
  String.mk (trimChars s.data)

/-- Does `hay` start with `pat` (character lists)? -/
def startsWithL : List Char → List Char → Bool
  | _, [] => true
  | [], _ :: _ => false
  | a :: as, b :: bs => a == b && startsWithL as bs

/-- Does `hay` contain `pat` as a contiguous run (character lists)? -/
def containsL : List Char → List Char → Bool
  | [], pat => pat.isEmpty
  | h :: t, pat => startsWithL (h :: t) pat || containsL t pat

/-- Go `strings.Contains hay pat`. -/
def strContains (hay pat : String) : Bool :=
  containsL hay.data pat.data

/-- Go `strings.HasPrefix s pat`. -/
def strStarts (s pat : String) : Bool :=
  startsWithL s.data pat.data

/-- Go `strings.HasSuffix s pat`. -/
def strEnds (s pat : String) : Bool :=
  startsWithL s.data.reverse pat.data.reverse

/-- Go `strings.TrimPrefix`. -/
def goTrimPre (s pat : String) : String :=
  if strStarts s pat then String.mk (s.data.drop pat.data.length) else s

/-- Go `strings.TrimSuffix`. -/
def goTrimSuf (s pat : String) : String :=
  if strEnds s pat then String.mk (s.data.take (s.data.length - pat.data.length)) else s

/-- Go `strings.ToLower` (ASCII). -/
def lowerStr (s : String) : String :=
  String.mk (s.data.map Char.toLower)

/-- Auxiliary splitter for `splitNL`. -/
def splitNLAux : List Char → List Char → List String
  | [], acc => [String.mk acc.reverse]
  | c :: rest, acc =>
      if c == '\n' then String.mk acc.reverse :: splitNLAux rest []
      else splitNLAux rest (c :: acc)

/-- Go `strings.Split s "\n"`. -/
def splitNL (s : String) : List String :=
  splitNLAux s.data []

/-! ## Data model from the source

`ChatMessage` is the conversation record used by `GetResponseFromChatMessages`
(`src/internal/ai_client.go`); `Message` is the wire format sent to the AI. -/

structure ChatMessage where
  content : String
  fromUser : Bool
  timestamp : Nat
deriving DecidableEq

structure Message where
  role : String
  content : String
deriving DecidableEq

/-! ## C5: role assignment in GetResponseFromChatMessages
(`src/internal/ai_client.go` lines 173-229). -/

/-- Role chosen for the message at index `i` by the conversion loop in
`GetResponseFromChatMessages`. -/
def roleForIndex (i : Nat) (m : ChatMessage) : String :=
  if i == 0 && !m.fromUser then "system"
  else if m.fromUser then "user"
  else "assistant"

/-- The conversion loop, with `i` the index of the first remaining message. -/
def toAiMessagesFrom (i : Nat) : List ChatMessage → List Message
  | [] => []
  | m :: rest => ⟨roleForIndex i m, m.content⟩ :: toAiMessagesFrom (i + 1) rest

/-- Conversion of the chat history performed by `GetResponseFromChatMessages`
before routing to a provider API. -/
def toAiMessages (msgs : List ChatMessage) : List Message :=
  toAiMessagesFrom 0 msgs

theorem toAiMessagesFrom_length (msgs : List ChatMessage) :
    ∀ i, (toAiMessagesFrom i msgs).length = msgs.length := by
  induction msgs with
  | nil => intro i; rfl
  | cons m rest ih =>
      intro i
      simp [toAiMessagesFrom, ih (i + 1)]

theorem toAiMessagesFrom_get (msgs : List ChatMessage) :
    ∀ i j (h : j < msgs.length) (h2 : j < (toAiMessagesFrom i msgs).length),
      (toAiMessagesFrom i msgs).get ⟨j, h2⟩ =
        ⟨roleForIndex (i + j) (msgs.get ⟨j, h⟩), (msgs.get ⟨j, h⟩).content⟩ := by
  induction msgs with
  | nil => intro i j h h2; exact absurd h (Nat.not_lt_zero j)
  | cons m rest ih =>
      intro i j h h2
      cases j with
      | zero => simp [toAiMessagesFrom]
      | succ j =>
          have hj : j < rest.length := Nat.lt_of_succ_lt_succ h
          have hj2 : j < (toAiMessagesFrom (i + 1) rest).length := by
            rw [toAiMessagesFrom_length]; exact hj
          have heq := ih (i + 1) j hj hj2
          have hidx : i + 1 + j = i + (j + 1) := by omega
          rw [hidx] at heq
          simpa [toAiMessagesFrom, List.get_eq_getElem] using heq

theorem toAiMessages_get (msgs : List ChatMessage) (j : Nat)
    (h : j < msgs.length) (h2 : j < (toAiMessages msgs).length) :
    (toAiMessages msgs).get ⟨j, h2⟩ =
      ⟨roleForIndex j (msgs.get ⟨j, h⟩), (msgs.get ⟨j, h⟩).content⟩ := by
  have := toAiMessagesFrom_get msgs 0 j h h2
  simpa [Nat.zero_add] using this

/-- C5. Converting the chat history for an AI call assigns role "system" to
index 0 exactly when that message is not from the user; every other message
gets role "user" exactly when its fromUser flag is set and "assistant"
otherwise; length and content are preserved. -/
theorem c5_role_assignment (msgs : List ChatMessage) (j : Nat)
    (h : j < msgs.length) (h2 : j < (toAiMessages msgs).length) :
    (toAiMessages msgs).length = msgs.length ∧
    ((toAiMessages msgs).get ⟨j, h2⟩).content = (msgs.get ⟨j, h⟩).content ∧
    (j = 0 →
      (((toAiMessages msgs).get ⟨j, h2⟩).role = "system" ↔
        (msgs.get ⟨j, h⟩).fromUser = false)) ∧
    (j ≠ 0 →
      ((toAiMessages msgs).get ⟨j, h2⟩).role =
        (if (msgs.get ⟨j, h⟩).fromUser then "user" else "assistant")) := by
  refine ⟨toAiMessagesFrom_length msgs 0, ?_, ?_, ?_⟩
  · rw [toAiMessages_get msgs j h h2]
  · intro hj
    subst hj
    rw [toAiMessages_get msgs 0 h h2]
    simp only [List.get_eq_getElem]
    cases hfu : msgs[0].fromUser
    · simp only [roleForIndex, hfu]
      decide
    · simp only [roleForIndex, hfu]
      decide
  · intro hj
    rw [toAiMessages_get msgs j h h2]
    simp only [List.get_eq_getElem]
    have hb : (j == 0) = false := by
      simpa using hj
    cases hfu : msgs[j].fromUser
    · simp only [roleForIndex, hb, hfu]
      decide
    · simp only [roleForIndex, hb, hfu]
      decide

/-- Witness for C5 at a concrete two-message history. -/
theorem c5_role_assignment_witness :
    (0 : Nat) < ([⟨"be helpful", false, 0⟩, ⟨"hi", true, 1⟩] : List ChatMessage).length ∧
    ((toAiMessages [⟨"be helpful", false, 0⟩, ⟨"hi", true, 1⟩]).get
        ⟨0, by decide⟩).role = "system" := by
  refine ⟨by decide, ?_⟩
  have h := c5_role_assignment [⟨"be helpful", false, 0⟩, ⟨"hi", true, 1⟩] 0
    (by decide) (by decide)
  exact (h.2.2.1 rfl).mpr rfl

/-! ## C7: fatal startup conditions in NewManager
(`src/internal/manager.go` lines 53-117).

The collaborator outcomes observed during setup are made explicit; every
`_ = ...` discard in the source corresponds to a field that the embedded
function does not consult. -/

structure SetupEnv where
  /-- Result of `system.TmuxCurrentPaneId` (None: not inside tmux). -/
  currentPaneId : Option String
  /-- Whether `system.TmuxExecSession` succeeds when invoked. -/
  execSessionOk : Bool
  /-- Whether `system.TmuxSetupStyling` succeeds (discarded by the source). -/
  stylingOk : Bool
  /-- Whether `system.TmuxSetPaneTitle` succeeds (discarded by the source). -/
  paneTitleOk : Bool
  /-- Whether the knowledge-base auto-load reads succeed (degrade gracefully). -/
  kbLoadOk : Bool

inductive SetupResult where
  | manager (paneId : String)
  | replacedProcess
  | fatal (msg : String)
deriving DecidableEq

/-- `NewManager`: if no current pane id is available, exec into a fresh tmux
session (replacing the process); only a failure of that exec returns an
error. With a pane id, construction always succeeds: styling, pane-title and
knowledge-base failures are discarded by the source (`_ = ...`). -/
def NewManagerModel (env : SetupEnv) : SetupResult :=
  match env.currentPaneId with
  | none =>
      if env.execSessionOk then SetupResult.replacedProcess
      else SetupResult.fatal "system.TmuxExecSession failed"
  | some pid => SetupResult.manager pid

/-- C7. Session setup is fatal exactly when there is no addressable target
pane at all: no current pane id and the fallback tmux exec also fails.
Styling, pane-title and knowledge-base outcomes never cause a fatal result. -/
theorem c7_only_pane_failure_fatal (env : SetupEnv) :
    (∃ m, NewManagerModel env = SetupResult.fatal m) ↔
      (env.currentPaneId = none ∧ env.execSessionOk = false) := by
  constructor
  · rintro ⟨m, hm⟩
    cases hpane : env.currentPaneId with
    | none =>
        cases hexec : env.execSessionOk with
        | false => exact ⟨rfl, rfl⟩
        | true => simp [NewManagerModel, hpane, hexec] at hm
    | some pid => simp [NewManagerModel, hpane] at hm
  · rintro ⟨hpane, hexec⟩
    exact ⟨"system.TmuxExecSession failed", by simp [NewManagerModel, hpane, hexec]⟩

/-! ## AI client transport model
(`src/internal/ai_client.go` lines 18-21, 117-124, 231-375).

The HTTP round-trip of `ChatCompletion` is embedded as one step over an
explicit transport state: the body of `client.Do` plus `io.ReadAll` is
abstracted into a `TransportOutcome` (a transport-level failure, or a
response with a status code, a raw body and the result of
`json.Unmarshal` on that body). The Go `(string, error)` return value
becomes `String × Option String`. -/

structure ChatCompletionChoice where
  index : Int
  message : Message
deriving DecidableEq

structure ChatCompletionResponse where
  id : String
  object : String
  created : Int
  choices : List ChatCompletionChoice
deriving DecidableEq

inductive TransportOutcome where
  /-- `client.Do` (or reading the body) failed: timeout, cancellation,
  connection error. -/
  | transportError (msg : String)
  /-- A response arrived with the given status code and raw body;
  `parsed` is the result of `json.Unmarshal` on the body. -/
  | httpResponse (status : Nat) (body : String) (parsed : Option ChatCompletionResponse)
deriving DecidableEq

/-- The response handling of `ChatCompletion` after the request was sent:
transport failure → error; status other than 200 → error; unparseable
body → error; otherwise the content of the first choice, or an error if
there are no choices. -/
def handleChatCompletionOutcome (model : String) : TransportOutcome → String × Option String
  | TransportOutcome.transportError m => ("", some ("failed to send request: " ++ m))
  | TransportOutcome.httpResponse status body parsed =>
      if status ≠ 200 then ("", some ("API returned error: " ++ body))
      else
        match parsed with
        | none => ("", some "failed to unmarshal response")
        | some cr =>
            match cr.choices with
            | c :: _ => (c.message.content, none)
            | [] => ("", some ("no completion choices returned (model: " ++ model ++ ")"))

/-- The transport seen by one `AiClient`: outcomes still pending delivery
and a count of HTTP requests issued so far. -/
structure Transport where
  pending : List TransportOutcome
  requestsSent : Nat
deriving DecidableEq

/-- Issue one HTTP request: consume the next pending outcome and count
the request. -/
def transportSend (tr : Transport) : TransportOutcome × Transport :=
  (tr.pending.headD (TransportOutcome.transportError "no response"),
   ⟨tr.pending.tail, tr.requestsSent + 1⟩)

/-- `ChatCompletion`: marshal, send exactly one request, handle the
outcome. There is no retry loop in the source. -/
def chatCompletion (model : String) (tr : Transport) :
    (String × Option String) × Transport :=
  ((handleChatCompletionOutcome model (transportSend tr).1), (transportSend tr).2)

/-- `time.Second` in nanoseconds, as in Go `time.Duration`. -/
def timeSecond : Nat := 1000000000

/-- `DefaultHTTPTimeout = 60 * time.Second`
(`src/internal/ai_client.go` lines 18-21). -/
def DefaultHTTPTimeout : Nat := 60 * timeSecond

/-- The configuration fields consulted by the legacy fallbacks of the
client (their values are irrelevant to the claims below). -/
structure Config where
  openAIAPIKey : String
  azureAPIKey : String
  openRouterAPIKey : String
deriving DecidableEq

/-- The state of an `AiClient` relevant here: `NewAiClient` stores the
configuration and constructs the HTTP client with `DefaultHTTPTimeout`
(`src/internal/ai_client.go` lines 117-124). -/
structure AiClient where
  config : Config
  clientTimeout : Nat
deriving DecidableEq

def NewAiClient (cfg : Config) : AiClient :=
  ⟨cfg, DefaultHTTPTimeout⟩

/-- C6. Every backend call issues exactly one HTTP request (the request
count grows by exactly one, whatever the outcome — no retry), and a
transport failure, a non-2xx status, or an unparseable body each yield
an error to the caller. -/
theorem c6_errors_surfaced_no_retry (model : String) (tr : Transport) :
    ((chatCompletion model tr).2.requestsSent = tr.requestsSent + 1) ∧
    (∀ m rest, tr.pending = TransportOutcome.transportError m :: rest →
      ((chatCompletion model tr).1.2).isSome = true) ∧
    (∀ st body p rest, tr.pending = TransportOutcome.httpResponse st body p :: rest →
      ¬(200 ≤ st ∧ st < 300) → ((chatCompletion model tr).1.2).isSome = true) ∧
    (∀ body rest, tr.pending = TransportOutcome.httpResponse 200 body none :: rest →
      ((chatCompletion model tr).1.2).isSome = true) := by
  refine ⟨rfl, ?_, ?_, ?_⟩
  · intro m rest hp
    simp [chatCompletion, transportSend, hp, handleChatCompletionOutcome]
  · intro st body p rest hp hst
    have hne : st ≠ 200 := by omega
    simp [chatCompletion, transportSend, hp, handleChatCompletionOutcome, hne]
  · intro body rest hp
    simp [chatCompletion, transportSend, hp, handleChatCompletionOutcome]

/-- Witness for C6: a 500 response is surfaced as an error and consumes
exactly one request. -/
theorem c6_errors_surfaced_no_retry_witness :
    ((chatCompletion "m" ⟨[TransportOutcome.httpResponse 500 "oops" none], 0⟩).2.requestsSent = 1) ∧
    ((chatCompletion "m" ⟨[TransportOutcome.httpResponse 500 "oops" none], 0⟩).1.2).isSome = true := by
  have h := c6_errors_surfaced_no_retry "m" ⟨[TransportOutcome.httpResponse 500 "oops" none], 0⟩
  exact ⟨h.1, h.2.2.1 500 "oops" none [] rfl (by omega)⟩

/-- C8. The client is constructed with a 60-second HTTP timeout, and a
timed-out request (a transport failure) is reported to the caller as a
failed round-trip while still counting as the single request of the
call — it is not retried. -/
theorem c8_default_timeout (cfg : Config) :
    (NewAiClient cfg).clientTimeout = 60 * timeSecond ∧
    (∀ model tr m rest, tr.pending = TransportOutcome.transportError m :: rest →
      ((chatCompletion model tr).1.2).isSome = true ∧
      (chatCompletion model tr).2.requestsSent = tr.requestsSent + 1) := by
  refine ⟨rfl, ?_⟩
  intro model tr m rest hp
  exact ⟨by simp [chatCompletion, transportSend, hp, handleChatCompletionOutcome], rfl⟩

/-- Witness for C8 at a concrete configuration and a timed-out request. -/
theorem c8_default_timeout_witness :
    (NewAiClient ⟨"", "", ""⟩).clientTimeout = 60 * timeSecond ∧
    ((chatCompletion "m" ⟨[TransportOutcome.transportError "timeout"], 0⟩).1.2).isSome = true := by
  have h := c8_default_timeout ⟨"", "", ""⟩
  exact ⟨h.1, (h.2 "m" ⟨[TransportOutcome.transportError "timeout"], 0⟩ "timeout" [] rfl).1⟩

/-- C9. On a 200 response that parses: with at least one choice the call
returns the content of the first choice and no error; with zero choices
it returns the empty string together with an error. -/
theorem c9_choices_handling (model : String) (tr : Transport)
    (body : String) (cr : ChatCompletionResponse) (rest : List TransportOutcome)
    (hp : tr.pending = TransportOutcome.httpResponse 200 body (some cr) :: rest) :
    (∀ c cs, cr.choices = c :: cs →
      (chatCompletion model tr).1 = (c.message.content, none)) ∧
    (cr.choices = [] →
      (chatCompletion model tr).1.1 = "" ∧
      ((chatCompletion model tr).1.2).isSome = true) := by
  constructor
  · intro c cs hc
    simp [chatCompletion, transportSend, hp, handleChatCompletionOutcome, hc]
  · intro hc
    constructor
    · simp [chatCompletion, transportSend, hp, handleChatCompletionOutcome, hc]
    · simp [chatCompletion, transportSend, hp, handleChatCompletionOutcome, hc]

/-- Witness for C9 at a concrete parsed response with one choice. -/
theorem c9_choices_handling_witness :
    (chatCompletion "m"
      ⟨[TransportOutcome.httpResponse 200 "raw"
          (some ⟨"id", "chat.completion", 0, [⟨0, ⟨"assistant", "hello"⟩⟩]⟩)], 0⟩).1 =
      ("hello", none) := by
  have h := c9_choices_handling "m"
    ⟨[TransportOutcome.httpResponse 200 "raw"
        (some ⟨"id", "chat.completion", 0, [⟨0, ⟨"assistant", "hello"⟩⟩]⟩)], 0⟩
    "raw" ⟨"id", "chat.completion", 0, [⟨0, ⟨"assistant", "hello"⟩⟩]⟩ [] rfl
  exact h.1 ⟨0, ⟨"assistant", "hello"⟩⟩ [] rfl

/-! ## ActionGate and RiskScorer (spec-modelled) -/

/-- Risk categories of the gate (spec §3 RiskLevel). -/
inductive RiskLevel where
  | safe
  | unknown
  | dangerous
deriving DecidableEq

/-- Severity order on risk levels. -/
def riskRank : RiskLevel → Nat
  | RiskLevel.safe => 0
  | RiskLevel.unknown => 1
  | RiskLevel.dangerous => 2

/-- The more severe of two risk levels. -/
def riskMax (a b : RiskLevel) : RiskLevel :=
  if riskRank a ≥ riskRank b then a else b

/-- Modelled from the spec: `risk_scorer.go` / `confirm.go` are not in the
source snapshot. A whitelist/blacklist pattern matches a candidate command
when the configured pattern string occurs in the command (spec glossary:
"configured string/pattern matched against candidate commands"). -/
def matchesAnyPattern (pats : List String) (cmd : String) : Bool :=
  pats.any (fun p => strContains cmd p)

structure GateDecision where
  risk : RiskLevel
  confirmationRequired : Bool
deriving DecidableEq

/-- Modelled from the spec: the ActionGate algorithm of §4.2, in order:
a blacklist match forces the risk to at least `dangerous` and always
requires confirmation; otherwise a whitelist match proceeds without
confirmation; otherwise a confirmation prompt is shown with the scorer
verdict as an advisory marker. -/
def actionGate (blacklist whitelist : List String) (scorer : String → RiskLevel)
    (cmd : String) : GateDecision :=
  if matchesAnyPattern blacklist cmd then ⟨riskMax (scorer cmd) RiskLevel.dangerous, true⟩
  else if matchesAnyPattern whitelist cmd then ⟨scorer cmd, false⟩
  else ⟨scorer cmd, true⟩

/-- C1. Any blacklist match forces the gate verdict to at least
`dangerous` and requires confirmation, for every whitelist and every
scorer verdict. -/
theorem c1_blacklist_forces_confirmation
    (blacklist whitelist : List String) (scorer : String → RiskLevel) (cmd : String)
    (h : matchesAnyPattern blacklist cmd = true) :
    riskRank (actionGate blacklist whitelist scorer cmd).risk ≥ riskRank RiskLevel.dangerous ∧
    (actionGate blacklist whitelist scorer cmd).confirmationRequired = true := by
  constructor
  · simp only [actionGate, h, if_true]
    cases hs : scorer cmd <;> simp [riskMax, riskRank]
  · simp [actionGate, h]

/-- Witness for C1: `"rm -rf /tmp/cache"` with blacklist `["rm -rf"]` is
gated as dangerous with confirmation even though the whitelist entry
`"rm"` also matches and the scorer says safe. -/
theorem c1_blacklist_forces_confirmation_witness :
    matchesAnyPattern ["rm -rf"] "rm -rf /tmp/cache" = true ∧
    matchesAnyPattern ["rm"] "rm -rf /tmp/cache" = true ∧
    riskRank (actionGate ["rm -rf"] ["rm"] (fun _ => RiskLevel.safe)
      "rm -rf /tmp/cache").risk ≥ riskRank RiskLevel.dangerous ∧
    (actionGate ["rm -rf"] ["rm"] (fun _ => RiskLevel.safe)
      "rm -rf /tmp/cache").confirmationRequired = true := by
  refine ⟨by decide, by decide, ?_⟩
  exact c1_blacklist_forces_confirmation ["rm -rf"] ["rm"]
    (fun _ => RiskLevel.safe) "rm -rf /tmp/cache" (by decide)

/-! ## ResponseParser (spec-modelled)

`process_response.go` is not in the source snapshot. The parser is
modelled from spec §4.1: the AI reply is expected to carry tagged
structured fields; when none can be located the parser degrades to an
Action holding the raw text as its message, with every other field at
its zero value, and never fails (it is a total function). -/

structure AIResponse where
  message : String
  sendKeys : List String
  execCommand : List String
  pasteMultilineContent : String
  requestAccomplished : Bool
  execPaneSeemsBusy : Bool
  waitingForUserResponse : Bool
  noComment : Bool
deriving DecidableEq

/-- Modelled from the spec: the opening tags of the structured fields of
an Action (named after the `AIResponse` fields of
`src/internal/manager.go`). -/
def responseTags : List String :=
  ["<Message>", "<SendKeys>", "<ExecCommand>", "<PasteMultilineContent>",
   "<RequestAccomplished>", "<ExecPaneSeemsBusy>", "<WaitingForUserResponse>",
   "<NoComment>"]

def containsAnyTag (raw : String) : Bool :=
  responseTags.any (fun t => strContains raw t)

/-- Text between the first occurrence of `op` and the following `cl`. -/
def extractBetween (raw op cl : String) : Option String :=
  match raw.splitOn op with
  | _ :: after :: _ => some ((after.splitOn cl).headD after)
  | _ => none

def tagText (raw name : String) : Option String :=
  extractBetween raw ("<" ++ name ++ ">") ("</" ++ name ++ ">")

def boolTag (raw name : String) : Bool :=
  strTrim ((tagText raw name).getD "") == "true"

def listTag (raw name : String) : List String :=
  ((((tagText raw name).getD "").splitOn ("\n")).map strTrim).filter (fun l => l ≠ "")

/-- Modelled from the spec (§4.1): the ResponseParser. Structured fields
are extracted when a tag is present; otherwise the reply degrades to a
plain message with all other fields at their zero values. -/
def parseAIResponse (raw : String) : AIResponse :=
  if containsAnyTag raw then
    { message := (tagText raw "Message").getD ""
      sendKeys := listTag raw "SendKeys"
      execCommand := listTag raw "ExecCommand"
      pasteMultilineContent := (tagText raw "PasteMultilineContent").getD ""
      requestAccomplished := boolTag raw "RequestAccomplished"
      execPaneSeemsBusy := boolTag raw "ExecPaneSeemsBusy"
      waitingForUserResponse := boolTag raw "WaitingForUserResponse"
      noComment := boolTag raw "NoComment" }
  else
    { message := raw
      sendKeys := []
      execCommand := []
      pasteMultilineContent := ""
      requestAccomplished := false
      execPaneSeemsBusy := false
      waitingForUserResponse := false
      noComment := false }

/-- C4. The parser is a total function (no error is ever raised), and
whenever no structured field can be located in the reply it returns the
Action whose message is the raw text with every other field at its zero
value. -/
theorem c4_parser_never_fails (raw : String)
    (h : containsAnyTag raw = false) :
    parseAIResponse raw =
      ⟨raw, [], [], "", false, false, false, false⟩ := by
  simp [parseAIResponse, h]

/-- Witness for C4: the scenario reply with no structured tags. -/
theorem c4_parser_never_fails_witness :
    containsAnyTag "Sure, I will help!" = false ∧
    parseAIResponse "Sure, I will help!" =
      ⟨"Sure, I will help!", [], [], "", false, false, false, false⟩ := by
  refine ⟨by decide, ?_⟩
  exact c4_parser_never_fails "Sure, I will help!" (by decide)

/-! ## ContextBudgetManager (spec-modelled)

The squashing code is not in the source snapshot; the manager is
modelled from spec §4.4 and §3. A conversation message carries its
content, origin and the "assistant-authored context" tag placed on the
synthetic summary message; its estimated token count is the
deterministic character-count heuristic of the spec. -/

structure CtxMessage where
  content : String
  fromUser : Bool
  /-- Set exactly on the synthetic summary message produced by a squash
  ("tagged as assistant-authored context", spec §4.4). -/
  isSummary : Bool
deriving DecidableEq

/-- Modelled from the spec: KnowledgeBase record (spec §3). -/
structure KnowledgeBase where
  name : String
  content : String
  estimatedTokenCount : Nat
  loaded : Bool
deriving DecidableEq

/-- Modelled from the spec: the session state consulted by the
ContextBudgetManager — the message sequence, the knowledge bases, the
configured maximum context size and the number N of most recent
messages a squash keeps verbatim. -/
structure ContextState where
  messages : List CtxMessage
  kbs : List KnowledgeBase
  maxContextSize : Nat
  keepRecentN : Nat
deriving DecidableEq

/-- Estimated token count of one message: the deterministic heuristic
proportional to character count (spec §4.4). -/
def msgTokens (m : CtxMessage) : Nat :=
  m.content.length

/-- Sum of the message estimates. -/
def messagesTokens (msgs : List CtxMessage) : Nat :=
  (msgs.map msgTokens).sum

/-- Token contribution of the loaded knowledge bases. -/
def kbTokens (s : ContextState) : Nat :=
  ((s.kbs.filter (fun k => k.loaded)).map (fun k => k.estimatedTokenCount)).sum

/-- Total estimated context usage: chat messages plus loaded knowledge
bases. -/
def totalTokens (s : ContextState) : Nat :=
  messagesTokens s.messages + kbTokens s

/-- Number of messages that precede the most recent N. -/
def summarizableLen (s : ContextState) : Nat :=
  s.messages.length - s.keepRecentN

/-- Modelled from the spec (§4.4): squash. When the context is already
below the 80% threshold, or when everything before the most recent N
messages is already the synthetic summary (no summarizable prefix), the
call is a no-op. Otherwise the messages before the most recent N are
sent to the summarizer; on failure the conversation is left intact
(SquashFailure), on success that prefix is replaced by one synthetic
tagged message and the most recent N messages are kept verbatim. -/
def squash (summarize : List CtxMessage → Option String) (s : ContextState) :
    ContextState :=
  if 100 * totalTokens s ≤ 80 * s.maxContextSize then s
  else if (s.messages.take (summarizableLen s)).all (fun m => m.isSummary) then s
  else
    match summarize (s.messages.take (summarizableLen s)) with
    | none => s
    | some c =>
        { s with messages := ⟨c, false, true⟩ :: s.messages.drop (summarizableLen s) }

/-- Modelled from the spec: the check the ContextBudgetManager performs
before each AI call — compare the total estimate to the configured
maximum and squash when utilization exceeds 80%. -/
def contextCheckBeforeAICall (summarize : List CtxMessage → Option String)
    (s : ContextState) : ContextState :=
  if 100 * totalTokens s > 80 * s.maxContextSize then squash summarize s else s

/-- C2. Whenever the total estimate (messages plus loaded knowledge
bases) exceeds 80% of the configured maximum, the check performed
before an AI call is exactly a squash. -/
theorem c2_squash_before_ai_call (summarize : List CtxMessage → Option String)
    (s : ContextState) (h : 100 * totalTokens s > 80 * s.maxContextSize) :
    contextCheckBeforeAICall summarize s = squash summarize s := by
  simp [contextCheckBeforeAICall, h]

/-- Witness for C2: the scenario state at 82,500 of 100,000 tokens
(82.5% > 80%) triggers the squash before the next AI call. -/
theorem c2_squash_before_ai_call_witness :
    totalTokens ⟨[⟨"hello", true, false⟩], [⟨"kb", "", 82495, true⟩], 100000, 5⟩ = 82500 ∧
    100 * totalTokens ⟨[⟨"hello", true, false⟩], [⟨"kb", "", 82495, true⟩], 100000, 5⟩ >
      80 * (100000 : Nat) ∧
    contextCheckBeforeAICall (fun _ => some "")
        ⟨[⟨"hello", true, false⟩], [⟨"kb", "", 82495, true⟩], 100000, 5⟩ =
      squash (fun _ => some "")
        ⟨[⟨"hello", true, false⟩], [⟨"kb", "", 82495, true⟩], 100000, 5⟩ := by
  refine ⟨by decide, by decide, ?_⟩
  exact c2_squash_before_ai_call (fun _ => some "")
    ⟨[⟨"hello", true, false⟩], [⟨"kb", "", 82495, true⟩], 100000, 5⟩ (by decide)

theorem squash_shape (summarize : List CtxMessage → Option String) (s : ContextState) :
    squash summarize s = s ∨
    ∃ c, summarize (s.messages.take (summarizableLen s)) = some c ∧
      ¬((s.messages.take (summarizableLen s)).all (fun m => m.isSummary) = true) ∧
      squash summarize s =
        { s with messages := ⟨c, false, true⟩ :: s.messages.drop (summarizableLen s) } := by
  unfold squash
  by_cases h1 : 100 * totalTokens s ≤ 80 * s.maxContextSize
  · left; simp [h1]
  · by_cases h2 : (s.messages.take (summarizableLen s)).all (fun m => m.isSummary) = true
    · left; simp [h1, h2]
    · cases hc : summarize (s.messages.take (summarizableLen s)) with
      | none => left; simp [h1, h2, hc]
      | some c =>
          right
          exact ⟨c, rfl, h2, by simp [h1, h2, hc]⟩

theorem squash_noop_below_threshold (summarize : List CtxMessage → Option String)
    (s : ContextState) (h : 100 * totalTokens s ≤ 80 * s.maxContextSize) :
    squash summarize s = s := by
  simp [squash, h]

theorem squash_noop_no_summarizable (summarize : List CtxMessage → Option String)
    (s : ContextState)
    (h : (s.messages.take (summarizableLen s)).all (fun m => m.isSummary) = true) :
    squash summarize s = s := by
  unfold squash
  by_cases h1 : 100 * totalTokens s ≤ 80 * s.maxContextSize
  · simp [h1]
  · simp [h1, h]

theorem squash_idem (summarize : List CtxMessage → Option String) (s : ContextState) :
    squash summarize (squash summarize s) = squash summarize s := by
  rcases squash_shape summarize s with h | ⟨c, hc, hall, h⟩
  · rw [h]
    exact h
  · rw [h]
    apply squash_noop_no_summarizable
    have hne : s.messages.take (summarizableLen s) ≠ [] := by
      intro hnil
      exact hall (by simp [hnil])
    have hkpos : 0 < s.messages.length - s.keepRecentN := by
      by_contra hk
      push_neg at hk
      have h0 : s.messages.length - s.keepRecentN = 0 := by omega
      apply hne
      simp [summarizableLen, h0]
    have hlen1 : summarizableLen
        { s with messages := ⟨c, false, true⟩ :: s.messages.drop (summarizableLen s) } = 1 := by
      simp only [summarizableLen, List.length_cons, List.length_drop]
      omega
    rw [hlen1]
    simp [List.take_succ_cons]

theorem squash_no_increase (summarize : List CtxMessage → Option String)
    (s : ContextState)
    (hcompact : ∀ msgs c, summarize msgs = some c → c.length ≤ messagesTokens msgs) :
    totalTokens (squash summarize s) ≤ totalTokens s := by
  rcases squash_shape summarize s with h | ⟨c, hc, _, h⟩
  · rw [h]
  · rw [h]
    have hsplit : messagesTokens s.messages =
        messagesTokens (s.messages.take (summarizableLen s)) +
        messagesTokens (s.messages.drop (summarizableLen s)) := by
      unfold messagesTokens
      rw [← List.sum_append, ← List.map_append, List.take_append_drop]
    have hle := hcompact (s.messages.take (summarizableLen s)) c hc
    unfold totalTokens
    simp only [messagesTokens, List.map_cons, List.sum_cons, kbTokens]
    unfold totalTokens at *
    simp only [messagesTokens] at hsplit hle ⊢
    simp only [msgTokens] at *
    omega

/-- C3. Squashing never increases the total estimated token count (given
the spec's promise that the synthetic summary is a condensed — not
larger — replacement of the summarized prefix), and squash is
idempotent: a second invocation with no new messages, an invocation
below the threshold, and an invocation without a summarizable prefix
all leave the message sequence unchanged. -/
theorem c3_squash_monotone_idempotent (summarize : List CtxMessage → Option String)
    (s : ContextState)
    (hcompact : ∀ msgs c, summarize msgs = some c → c.length ≤ messagesTokens msgs) :
    totalTokens (squash summarize s) ≤ totalTokens s ∧
    squash summarize (squash summarize s) = squash summarize s ∧
    (100 * totalTokens s ≤ 80 * s.maxContextSize → squash summarize s = s) ∧
    ((s.messages.take (summarizableLen s)).all (fun m => m.isSummary) = true →
      squash summarize s = s) := by
  exact ⟨squash_no_increase summarize s hcompact,
         squash_idem summarize s,
         squash_noop_below_threshold summarize s,
         squash_noop_no_summarizable summarize s⟩

/-- Witness for C3 at a concrete over-budget state and the empty-summary
summarizer. -/
theorem c3_squash_monotone_idempotent_witness :
    totalTokens (squash (fun _ => some "")
        ⟨[⟨"0123456789", true, false⟩, ⟨"hi", true, false⟩], [], 10, 1⟩) ≤
      totalTokens ⟨[⟨"0123456789", true, false⟩, ⟨"hi", true, false⟩], [], 10, 1⟩ ∧
    squash (fun _ => some "")
        (squash (fun _ => some "")
          ⟨[⟨"0123456789", true, false⟩, ⟨"hi", true, false⟩], [], 10, 1⟩) =
      squash (fun _ => some "")
        ⟨[⟨"0123456789", true, false⟩, ⟨"hi", true, false⟩], [], 10, 1⟩ := by
  have h := c3_squash_monotone_idempotent (fun _ => some "")
    ⟨[⟨"0123456789", true, false⟩, ⟨"hi", true, false⟩], [], 10, 1⟩
    (by
      intro msgs c hc
      simp only [Option.some.injEq] at hc
      subst hc
      simp [messagesTokens])
  exact ⟨h.1, h.2.1⟩

/-! ## C10: the two response parsers of TranslateNaturalLanguageMultiple

The repository carries two versions of `TranslateNaturalLanguageMultiple`:
`src/internal/ai_client.go` lines 648-765 and `src/unnamed/part_002`
lines 649-883. Their post-AI parsing stages are embedded below as pure
functions of the raw response text (the AI round-trip itself is common
plumbing shared with `ChatCompletion`). -/

/-- Digit `0`-`9`. -/
def isDigitC (c : Char) : Bool :=
  48 ≤ c.toNat && c.toNat ≤ 57

/-- Digit `1`-`9` (the Go byte comparisons of the internal version). -/
def isDig19 (c : Char) : Bool :=
  49 ≤ c.toNat && c.toNat ≤ 57

def isLowerC (c : Char) : Bool :=
  97 ≤ c.toNat && c.toNat ≤ 122

def isUpperC (c : Char) : Bool :=
  65 ≤ c.toNat && c.toNat ≤ 90

def isLetterC (c : Char) : Bool :=
  isLowerC c || isUpperC c

/-- The regexp class `[a-zA-Z0-9_-]`. -/
def isWordC (c : Char) : Bool :=
  isLetterC c || isDigitC c || c == '_' || c == '-'

/-- The delimiters accepted after the command word: `(\s|$|>|<|\||&|;)`. -/
def isDelimC (c : Char) : Bool :=
  isReSpace c || c == '>' || c == '<' || c == '|' || c == '&' || c == ';'

/-- Numbering removal of the internal version: literal byte tests
`line[1] == '.'` with a leading digit (one or two digits), then
`TrimSpace` of the tail. -/
def stripNum1 : List Char → List Char
  | a :: '.' :: rest =>
      if isDig19 a && !rest.isEmpty then trimChars rest else a :: '.' :: rest
  | a :: b :: '.' :: rest =>
      if isDig19 a && isDigitC b && !rest.isEmpty then trimChars rest
      else a :: b :: '.' :: rest
  | l => l

/-- One processing step of the internal parser loop: trim, numbering
removal, code-fence removal, trim, and the `Input:`/`Output:`/`Examples:`
filter. Returns the surviving option, if any. -/
def procLineInternal (rawLine : String) : Option String :=
  let l1 := strTrim rawLine
  if l1 = "" then none
  else
    let l2 := String.mk (stripNum1 l1.data)
    let l3 := goTrimSuf (goTrimPre (goTrimPre (goTrimPre l2 ("```bash")) ("```sh")) ("```")) ("```")
    let l4 := strTrim l3
    if l4 = "" then none
    else if strStarts l4 ("Input:") then none
    else if strStarts l4 ("Output:") then none
    else if strStarts l4 ("Examples:") then none
    else some l4

/-- Parsing stage of `TranslateNaturalLanguageMultiple` in
`src/internal/ai_client.go`: every surviving line is an option, without
any cap or deduplication; an empty option list is an error. -/
def TranslateMultipleParseInternal (response : String) : Except String (List String) :=
  let options := (splitNL (strTrim response)).filterMap procLineInternal
  if options = [] then Except.error "no valid command options generated"
  else Except.ok options

/-- The regexp `^\s*\d+[.)]\s*`, applied once at the start of the line
(the part_002 version removes it via `ReplaceAllString`). -/
def stripNumRe1 (s : String) : String :=
  let rest1 := s.data.dropWhile isReSpace
  if (rest1.takeWhile isDigitC).isEmpty then s
  else
    match rest1.dropWhile isDigitC with
    | c :: rest3 =>
        if c == '.' || c == ')' then String.mk (rest3.dropWhile isReSpace) else s
    | [] => s

/-- The regexp `^\d+[.)]\s*`, applied once at the start of the line. -/
def stripNumRe2 (s : String) : String :=
  if (s.data.takeWhile isDigitC).isEmpty then s
  else
    match s.data.dropWhile isDigitC with
    | c :: rest3 =>
        if c == '.' || c == ')' then String.mk (rest3.dropWhile isReSpace) else s
    | [] => s

/-- The explanatory-phrase list of the part_002 version, verbatim. Each
entry is lowercased and searched for in the lowercased line. -/
def explanatoryPatterns : List String :=
  ["Input:", "Output:", "Examples:", "Task:", "Rules:", "CRITICAL",
   "I notice", "I\x27ll", "Here are", "You can", "This will", "Note:",
   "Warning:", "Error:", "Tip:", "Remember:", "provide", "accomplish",
   "interpret", "appears", "typo", "will interpret", "as", "and provide",
   "commands to", "display", "content", "information", "notice the",
   "appears to have", "interpret this", "show me", "more", "less"]

/-- Does the list start with some `a` of `as`, then `\s+`, then some `b`
of `bs`? (One alternation-pair regexp step; the alternatives contain no
whitespace, so consuming the maximal run of spaces is equivalent.) -/
def startsAltPair (as bs : List String) (l : List Char) : Bool :=
  as.any (fun a =>
    startsWithL l a.data &&
    (match l.drop a.data.length with
     | [] => false
     | c :: rest =>
         isReSpace c && bs.any (fun b => startsWithL ((c :: rest).dropWhile isReSpace) b.data)))

/-- Unanchored search for `startsAltPair`. -/
def searchAltPair (as bs : List String) : List Char → Bool
  | [] => false
  | c :: rest => startsAltPair as bs (c :: rest) || searchAltPair as bs rest

/-- The regexp `(I|I'll|I will|Here|This|These|The|A|An)\s+(notice|will|can|are|is|was|were)`
searched in the (lowercased) line. -/
def sentenceLikeA (lower : String) : Bool :=
  searchAltPair ["I", "I\x27ll", "I will", "Here", "This", "These", "The", "A", "An"]
    ["notice", "will", "can", "are", "is", "was", "were"] lower.data

/-- The regexp `^I\s+(notice|will|can|interpret)` on the (lowercased) line. -/
def sentenceLikeB (lower : String) : Bool :=
  startsAltPair ["I"] ["notice", "will", "can", "interpret"] lower.data

/-- The regexp `(appears to have|interpret this as|and provide commands)`. -/
def sentenceLikeC (lower : String) : Bool :=
  ["appears to have", "interpret this as", "and provide commands"].any
    (fun p => strContains lower p)

/-- Unanchored search for the regexp `:\s+[A-Z]`. -/
def colonCapSearch : List Char → Bool
  | [] => false
  | c :: rest =>
      (c == ':' &&
        (match rest with
         | [] => false
         | d :: _ =>
             isReSpace d &&
               (match rest.dropWhile isReSpace with
                | [] => false
                | u :: _ => isUpperC u)))
      || colonCapSearch rest

/-- All the explanatory-text rejections of the part_002 version, in
source order. -/
def hasExplanatoryText (line : String) : Bool :=
  let lower := lowerStr line
  explanatoryPatterns.any (fun p => strContains lower (lowerStr p)) ||
  sentenceLikeA lower || sentenceLikeB lower || sentenceLikeC lower ||
  (colonCapSearch line.data && line.data.length > 50)

/-- Tail after the optional `[.)]` of the just-a-number regexp. -/
def dropOptDot : List Char → List Char
  | c :: r => if c == '.' || c == ')' then r else c :: r
  | [] => []

/-- The regexp `^\d+[.)]?\s*$` (full match). -/
def isJustNumberLine (l : List Char) : Bool :=
  !(l.takeWhile isDigitC).isEmpty && (dropOptDot (l.dropWhile isDigitC)).all isReSpace

/-- The regexp `^[a-zA-Z][a-zA-Z0-9_-]*(\s|$|>|<|\||&|;)`: a command
word followed by a delimiter or the end of the line. -/
def commandShaped : List Char → Bool
  | [] => false
  | c :: rest =>
      isLetterC c &&
        (match rest.dropWhile isWordC with
         | [] => true
         | d :: _ => isDelimC d)

/-- Does the line contain a character of `[a-zA-Z0-9]`? -/
def hasAlnum (l : List Char) : Bool :=
  l.any (fun c => isLetterC c || isDigitC c)

/-- One processing step of the part_002 parser loop, in source order:
trim, the two regexp numbering strips, trim, code-fence removal, trim,
the explanatory-text filter, the just-a-number filter, the length cap,
the command-shape check and the alphanumeric check. -/
def procLinePart002 (rawLine : String) : Option String :=
  let l1 := strTrim rawLine
  if l1 = "" then none
  else
    let l2 := strTrim (stripNumRe2 (stripNumRe1 l1))
    if l2 = "" then none
    else
      let l3 := strTrim (goTrimSuf (goTrimPre (goTrimPre (goTrimPre l2 ("```bash")) ("```sh")) ("```")) ("```"))
      if l3 = "" then none
      else if hasExplanatoryText l3 then none
      else if isJustNumberLine l3.data then none
      else if l3.data.length > 150 then none
      else if !commandShaped l3.data then none
      else if !hasAlnum l3.data then none
      else some l3

/-- Go map membership `seen[lower]`. -/
def memStr (seen : List String) (x : String) : Bool :=
  seen.any (fun y => y == x)

/-- The deduplication loop of the part_002 version: case-insensitive on
the trimmed option, preserving the original text, stopping at five
unique options. -/
def dedupTake5Aux : List String → List String → List String → List String
  | [], _, acc => acc.reverse
  | o :: rest, seen, acc =>
      let lower := lowerStr (strTrim o)
      if memStr seen lower then dedupTake5Aux rest seen acc
      else if acc.length + 1 ≥ 5 then (o :: acc).reverse
      else dedupTake5Aux rest (lower :: seen) (o :: acc)

def dedupTake5 (opts : List String) : List String :=
  dedupTake5Aux opts [] []

/-- Parsing stage of `TranslateNaturalLanguageMultiple` in
`src/unnamed/part_002`: filtered lines capped at five, deduplicated
case-insensitively; an empty result is returned as an empty list with
no error. -/
def TranslateMultipleParsePart002 (response : String) : Except String (List String) :=
  Except.ok (dedupTake5 (((splitNL (strTrim response)).filterMap procLinePart002).take 5))

theorem not_mem_of_memStr_false (seen : List String) (x : String)
    (h : memStr seen x = false) : x ∉ seen := by
  intro hx
  have ht : memStr seen x = true := by
    unfold memStr
    rw [List.any_eq_true]
    exact ⟨x, hx, by simp⟩
  rw [ht] at h
  exact Bool.noConfusion h

theorem dedupTake5Aux_spec :
    ∀ (input seen acc : List String),
      (∀ a ∈ acc, lowerStr (strTrim a) ∈ seen) →
      ((acc.map (fun o => lowerStr (strTrim o))).Nodup) →
      acc.length < 5 →
      (dedupTake5Aux input seen acc).length ≤ 5 ∧
      ((dedupTake5Aux input seen acc).map (fun o => lowerStr (strTrim o))).Nodup := by
  intro input
  induction input with
  | nil =>
      intro seen acc hmem hnd hlen
      refine ⟨?_, ?_⟩
      · simpa [dedupTake5Aux] using Nat.le_of_lt hlen
      · simpa [dedupTake5Aux, List.map_reverse, List.nodup_reverse] using hnd
  | cons o rest ih =>
      intro seen acc hmem hnd hlen
      by_cases hm : memStr seen (lowerStr (strTrim o)) = true
      · have : dedupTake5Aux (o :: rest) seen acc = dedupTake5Aux rest seen acc := by
          simp [dedupTake5Aux, hm]
        rw [this]
        exact ih seen acc hmem hnd hlen
      · have hm2 : memStr seen (lowerStr (strTrim o)) = false := by
          cases hval : memStr seen (lowerStr (strTrim o))
          · rfl
          · exact absurd hval hm
        have hnotin : lowerStr (strTrim o) ∉ seen :=
          not_mem_of_memStr_false seen (lowerStr (strTrim o)) hm2
        have hnewhead : lowerStr (strTrim o) ∉ acc.map (fun a => lowerStr (strTrim a)) := by
          intro hin
          rcases List.mem_map.mp hin with ⟨a, ha, hfa⟩
          exact hnotin (hfa ▸ hmem a ha)
        by_cases hfull : acc.length + 1 ≥ 5
        · have : dedupTake5Aux (o :: rest) seen acc = (o :: acc).reverse := by
            simp [dedupTake5Aux, hm2, hfull]
          rw [this]
          refine ⟨?_, ?_⟩
          · simp only [List.length_reverse, List.length_cons]
            omega
          · rw [List.map_reverse, List.nodup_reverse]
            simp only [List.map_cons, List.nodup_cons]
            exact ⟨hnewhead, hnd⟩
        · have : dedupTake5Aux (o :: rest) seen acc =
              dedupTake5Aux rest (lowerStr (strTrim o) :: seen) (o :: acc) := by
            simp [dedupTake5Aux, hm2, hfull]
          rw [this]
          apply ih
          · intro a ha
            rcases List.mem_cons.mp ha with rfl | ha2
            · exact List.mem_cons_self _ _
            · exact List.mem_cons_of_mem _ (hmem a ha2)
          · simp only [List.map_cons, List.nodup_cons]
            exact ⟨hnewhead, hnd⟩
          · simp only [List.length_cons]
            omega

/-- C10 counterexample. The two parsing stages are not equivalent: on
the empty response the internal version returns an error while the
part_002 version succeeds with an empty list, and on a response whose
two lines repeat the same command they return different option lists
(the part_002 version deduplicates). -/
theorem c10_counterexample :
    (TranslateMultipleParseInternal "").isOk = false ∧
    (TranslateMultipleParsePart002 "").isOk = true ∧
    (TranslateMultipleParseInternal "ls -la\nls -la").toOption ≠
      (TranslateMultipleParsePart002 "ls -la\nls -la").toOption := by
  decide

/-- C10 (amended). The two versions are not equivalent as parsers: the
internal one errors exactly when no line survives its filter, while the
part_002 one never returns an error and always yields at most five
options that are duplicate-free after case-insensitive trimming. -/
theorem c10_parsers_not_equivalent :
    ∀ response : String,
      (∀ e, TranslateMultipleParseInternal response = Except.error e →
        (splitNL (strTrim response)).filterMap procLineInternal = []) ∧
      ∃ l, TranslateMultipleParsePart002 response = Except.ok l ∧
        l.length ≤ 5 ∧
        (l.map (fun o => lowerStr (strTrim o))).Nodup := by
  intro response
  constructor
  · intro e herr
    by_cases hopt : (splitNL (strTrim response)).filterMap procLineInternal = []
    · exact hopt
    · rw [TranslateMultipleParseInternal] at herr
      simp only [hopt, if_false] at herr
      exact Except.noConfusion herr
  · refine ⟨dedupTake5 (((splitNL (strTrim response)).filterMap procLinePart002).take 5),
      rfl, ?_⟩
    have h := dedupTake5Aux_spec
      (((splitNL (strTrim response)).filterMap procLinePart002).take 5) [] []
      (by intro a ha; exact absurd ha (List.not_mem_nil a))
      (by simp)
      (by simp)
    exact ⟨h.1, h.2⟩

/-- Witness for the amended C10 at the empty response, where the
internal version does error. -/
theorem c10_parsers_not_equivalent_witness :
    (splitNL (strTrim "")).filterMap procLineInternal = [] ∧
    (∃ l, TranslateMultipleParsePart002 "" = Except.ok l ∧
      l.length ≤ 5 ∧ (l.map (fun o => lowerStr (strTrim o))).Nodup) := by
  have h := c10_parsers_not_equivalent ""
  exact ⟨h.1 "no valid command options generated" rfl, h.2⟩

end Aiterm
